import Mathlib

/-!
Verification of the POP3 client in `pop3.go` (package pop3).

The Go functions are shallowly embedded as Lean functions over `String`
and `List String`.  Go strings here carry only ASCII protocol text, so a
Go byte-indexed string is modelled by a Lean `String` / `List Char`.
A Go run-time panic (index out of range) is modelled by `Option.none`
on the result of the function that would panic.
-/

namespace Pop3

/-- `strings.SplitN(l, " ", 2)` restricted to what `Cmd` uses: the first
component is the text before the first space, the second the text after it;
`none` when the string contains no space (Go then returns a 1-element slice). -/
def splitFirstAux : List Char → List Char → Option (List Char × List Char)
  | [], _ => none
  | c :: rest, acc =>
    if c = ' ' then some (acc.reverse, rest) else splitFirstAux rest (c :: acc)

/-- The value of `last` in `Cmd` (pop3.go lines 74-77): `split[1]` when
`strings.SplitN(l, " ", 2)` yields two parts, otherwise the whole line. -/
def cmdLast (l : String) : String :=
  match splitFirstAux l.data [] with
  | some (_, after) => String.mk after
  | none => l

/-- Response processing of `Cmd` (pop3.go lines 73-81), applied to the status
line read from the transport.  `none` models the panic of `l[0]` on an empty
line; `some (.error m)` models `errors.New(last)`; `some (.ok p)` the payload. -/
def cmdProcess (l : String) : Option (Except String String) :=
  let last := cmdLast l
  match l.data.head? with
  | none => none
  | some c => if c ≠ '+' then some (Except.error last) else some (Except.ok last)

/-- The bytes `Cmd` writes to the transport (pop3.go lines 65-68) for a
command text with no format arguments: CRLF is appended only when the
text is non-empty; an empty text writes nothing at all. -/
def cmdWrite (format : String) : String :=
  if format ≠ "" then format ++ "\r\n" else format

/-- Modelled from the spec: "the text after the first space, or the whole
line if there is no space". -/
def restAfterFirstSpace (l : String) : String :=
  if ' ' ∈ l.data then String.mk ((l.data.dropWhile (fun c => !(c = ' '))).tail)
  else l

lemma splitFirstAux_eq_none (cs : List Char) (acc : List Char) (h : ' ' ∉ cs) :
    splitFirstAux cs acc = none := by
  induction cs generalizing acc with
  | nil => rfl
  | cons c rest ih =>
    have hc : c ≠ ' ' := fun hc => h (hc ▸ List.mem_cons_self c rest)
    simp [splitFirstAux, hc, ih _ (fun hm => h (List.mem_cons_of_mem c hm))]

lemma splitFirstAux_snd (cs : List Char) (acc : List Char) (h : ' ' ∈ cs) :
    ∃ b, splitFirstAux cs acc
      = some (b, (cs.dropWhile (fun c => !(c = ' '))).tail) := by
  induction cs generalizing acc with
  | nil => exact absurd h (List.not_mem_nil ' ')
  | cons c rest ih =>
    by_cases hc : c = ' '
    · subst hc
      exact ⟨acc.reverse, by simp [splitFirstAux, List.dropWhile_cons]⟩
    · have hr : ' ' ∈ rest := by
        rcases List.mem_cons.mp h with h1 | h1
        · exact absurd h1.symm hc
        · exact h1
      rcases ih (c :: acc) hr with ⟨b, hb⟩
      refine ⟨b, ?_⟩
      simp only [splitFirstAux, if_neg hc]
      rw [hb]
      have hd : List.dropWhile (fun c => !(c = ' ')) (c :: rest)
          = List.dropWhile (fun c => !(c = ' ')) rest := by
        simp [List.dropWhile_cons, hc]
      rw [hd]

lemma cmdLast_eq_restAfterFirstSpace (l : String) :
    cmdLast l = restAfterFirstSpace l := by
  unfold cmdLast restAfterFirstSpace
  by_cases h : ' ' ∈ l.data
  · rcases splitFirstAux_snd l.data [] h with ⟨b, hb⟩
    rw [hb, if_pos h]
  · rw [splitFirstAux_eq_none _ _ h, if_neg h]

/-- The byte-stuffing undo inside the `ReadLines` loop (pop3.go lines 89-91):
a line whose first byte is `'.'` loses exactly that byte. -/
def stripDot (line : String) : String :=
  if line.data.head? = some '.' then String.mk line.data.tail else line

/-- `ReadLines` (pop3.go lines 84-97), with the transport modelled as the
finite list of lines it will deliver.  The loop stops at the first line equal
to `"."` (second component `true`); running out of input models a read error
ending the loop with the lines collected so far (second component `false`). -/
def readLines : List String → List String × Bool
  | [] => ([], false)
  | l :: rest =>
    if l = "." then ([], true)
    else
      let r := readLines rest
      (stripDot l :: r.1, r.2)

/-- `unicode.IsSpace` restricted to the ASCII range, as used by
`strings.Fields` on protocol text. -/
def isGoSpace (c : Char) : Bool :=
  c = ' ' ∨ c = '\t' ∨ c = '\n' ∨ c = '\x0b' ∨ c = '\x0c' ∨ c = '\r'

def fieldsAux : List Char → List Char → List String
  | [], acc => if acc = [] then [] else [String.mk acc.reverse]
  | c :: rest, acc =>
    if isGoSpace c then
      if acc = [] then fieldsAux rest []
      else String.mk acc.reverse :: fieldsAux rest []
    else fieldsAux rest (c :: acc)

/-- `strings.Fields`: the maximal runs of non-whitespace characters. -/
def goFields (s : String) : List String := fieldsAux s.data []

/-- `strconv.Atoi`: optional sign, at least one decimal digit, nothing else,
and the value must fit a 64-bit `int` (out of range is an error). -/
def goAtoi (s : String) : Option Int :=
  let (sign, digits) :=
    match s.data with
    | '+' :: rest => ((1 : Int), rest)
    | '-' :: rest => ((-1 : Int), rest)
    | cs => ((1 : Int), cs)
  if digits = [] then none
  else if digits.all (fun c => '0' ≤ c ∧ c ≤ '9') then
    let n : Nat := digits.foldl (fun acc c => acc * 10 + (c.toNat - 48)) 0
    let v : Int := sign * (n : Int)
    if -(2 ^ 63) ≤ v ∧ v ≤ 2 ^ 63 - 1 then some v else none
  else none

/-- Post-`Cmd` processing of `Stat` (pop3.go lines 157-166) on the success
payload `l`.  Outer `none` models the panic of an unguarded `parts[0]` or
`parts[1]`; otherwise the result is `(count, size, err)` exactly as the Go
function returns them: `(0, 0, some msg)` on an `Atoi` failure. -/
def statParse (l : String) : Option (Int × Int × Option String) :=
  match goFields l with
  | [] => none
  | p0 :: parts1 =>
    match goAtoi p0 with
    | none => some (0, 0, some "Invalid server response")
    | some c =>
      match parts1 with
      | [] => none
      | p1 :: _ =>
        match goAtoi p1 with
        | none => some (0, 0, some "Invalid server response")
        | some s => some (c, s, none)

/-- Post-`Cmd` processing of `List` (pop3.go lines 177-181) on the success
payload `l`: `strconv.Atoi(strings.Fields(l)[1])`, `none` modelling the panic
when the payload has fewer than two fields. -/
def listParse (l : String) : Option (Int × Option String) :=
  match goFields l with
  | _ :: f1 :: _ =>
    match goAtoi f1 with
    | none => some (0, some "Invalid server response")
    | some s => some (s, none)
  | _ => none

/-- In-place update of position `i` of a Go slice modelled as a list
(out-of-range writes cannot arise in `ListAll`, whose slices are
pre-allocated to the number of lines). -/
def listSet : List Int → Nat → Int → List Int
  | [], _, _ => []
  | _ :: rest, 0, v => v :: rest
  | x :: rest, n + 1, v => x :: listSet rest n v

/-- The parsing loop of `ListAll` (pop3.go lines 196-209): `msgs` and `sizes`
are pre-allocated zero slices overwritten index by index.  Outer `none`
models the panic of `fs[0]`/`fs[1]` on a line with too few fields; the third
component is `true` on success and `false` when the loop returned early with
`err` from a failed `Atoi` (leaving the slices as they were at that point). -/
def listAllLoop : List String → Nat → List Int → List Int →
    Option (List Int × List Int × Bool)
  | [], _, msgs, sizes => some (msgs, sizes, true)
  | l :: rest, i, msgs, sizes =>
    match goFields l with
    | [] => none
    | f0 :: fs1 =>
      match goAtoi f0 with
      | none => some (msgs, sizes, false)
      | some m =>
        match fs1 with
        | [] => none
        | f1 :: _ =>
          match goAtoi f1 with
          | none => some (msgs, sizes, false)
          | some s => listAllLoop rest (i + 1) (listSet msgs i m) (listSet sizes i s)

/-- `ListAll` (pop3.go lines 185-211) after the multi-line block has been
read into `lines`: `make([]int, len(lines))` twice, then the parsing loop. -/
def listAllParse (lines : List String) : Option (List Int × List Int × Bool) :=
  listAllLoop lines 0 (List.replicate lines.length 0) (List.replicate lines.length 0)

/-- The capability scan of `Auth` (pop3.go lines 108-117): a fold over the
capability lines computing the `sasl` slice (`none` = Go `nil`; a line with
prefix `"SASL"` replaces it by the space-split tail) and the `plain` flag. -/
def capsScan (caps : List String) : Option (List String) × Bool :=
  caps.foldl
    (fun st c =>
      if "SASL".data.isPrefixOf c.data then
        (some (((c.data.splitOn ' ').map String.mk).drop 1), st.2)
      else if c = "PLAIN" then (st.1, true)
      else st)
    (none, false)

/-- The mechanism `Auth` goes on to run. -/
inductive AuthChoice
  | cramMd5
  | plain
  | unsupported
  deriving DecidableEq

/-- The mechanism-selection logic of `Auth` (pop3.go lines 118-144): the
CRAM-MD5 branch is taken when the scanned `sasl` slice is non-nil and
contains `"CRAM-MD5"`; otherwise the plain branch when the `plain` flag is
set; otherwise the error `"No supported auth methods found."`. -/
def authSelect (caps : List String) : AuthChoice :=
  let st := capsScan caps
  match st.1 with
  | some sasl =>
    if sasl.contains "CRAM-MD5" then AuthChoice.cramMd5
    else if st.2 then AuthChoice.plain
    else AuthChoice.unsupported
  | none => if st.2 then AuthChoice.plain else AuthChoice.unsupported

/-- The standard base64 alphabet of `encoding/base64.StdEncoding`. -/
def b64Char (n : Nat) : Char :=
  ("ABCDEFGHIJKLMNOPQRSTUVWXYZabcdefghijklmnopqrstuvwxyz0123456789+/".data).getD n 'A'

/-- `base64.StdEncoding.EncodeToString` over a byte list. -/
def base64Encode : List Nat → List Char
  | [] => []
  | [a] => [b64Char (a / 4), b64Char (a % 4 * 16), '=', '=']
  | [a, b] => [b64Char (a / 4), b64Char (a % 4 * 16 + b / 16), b64Char (b % 16 * 4), '=']
  | a :: b :: c :: rest =>
    b64Char (a / 4) :: b64Char (a % 4 * 16 + b / 16) ::
      b64Char (b % 16 * 4 + c / 64) :: b64Char (c % 64) :: base64Encode rest

/-- `base64.StdEncoding.EncodeToString([]byte(s))` for an ASCII string. -/
def base64String (s : String) : String :=
  String.mk (base64Encode (s.data.map Char.toNat))

/-- `fmt.Sprintf` restricted to `%s` verbs, enough for the format strings
`Cmd` is called with in `Auth`. -/
def goSprintfS : List Char → List String → List Char
  | [], _ => []
  | '%' :: 's' :: rest, a :: args => a.data ++ goSprintfS rest args
  | c :: rest, args => c :: goSprintfS rest args

/-- The command text built by the plain branch of `Auth` (pop3.go line 141):
`fmt.Sprintf`-style formatting of `"AUTH %s %s"` with the username and the
base64-encoded password. -/
def authPlainCmdText (username password : String) : String :=
  String.mk (goSprintfS "AUTH %s %s".data [username, base64String password])

end Pop3

namespace Pop3

/-- C1: on an empty status line, `Cmd` does not return a malformed-response
error; it evaluates `l[0]` on the empty string, an index-out-of-range panic
(modelled by `none`).  The required guard is absent. -/
theorem c1_cmd_empty_line_panics : cmdProcess "" = none := rfl

/-- C2: for every non-empty status line, `Cmd` returns as payload the text
after the first space (the whole line when there is no space) when the first
character is `'+'`, and an error carrying that same text otherwise. -/
theorem c2_cmd_status_classification (l : String) (h : l ≠ "") :
    (l.data.head? = some '+' →
      cmdProcess l = some (Except.ok (restAfterFirstSpace l))) ∧
    (l.data.head? ≠ some '+' →
      cmdProcess l = some (Except.error (restAfterFirstSpace l))) := by
  have hne : l.data ≠ [] := fun hnil => h (String.ext (by rw [hnil]))
  obtain ⟨c, cs, hd⟩ : ∃ c cs, l.data = c :: cs := by
    cases hcs : l.data with
    | nil => exact absurd hcs hne
    | cons c cs => exact ⟨c, cs, rfl⟩
  constructor
  · intro hp
    have hc : c = '+' := by rw [hd] at hp; simpa using hp
    simp [cmdProcess, hd, hc, cmdLast_eq_restAfterFirstSpace]
  · intro hp
    have hc : c ≠ '+' := fun hcc => hp (by rw [hd, hcc]; rfl)
    simp [cmdProcess, hd, hc, cmdLast_eq_restAfterFirstSpace]

/-- Witness for C2 at concrete status lines. -/
theorem c2_witness :
    cmdProcess "+OK 2 msgs" = some (Except.ok "2 msgs") ∧
    cmdProcess "-ERR no" = some (Except.error "no") := by
  constructor
  · have h := (c2_cmd_status_classification "+OK 2 msgs" (by decide)).1 (by decide)
    rw [h]; rfl
  · have h := (c2_cmd_status_classification "-ERR no" (by decide)).2 (by decide)
    rw [h]; rfl

/-- C3: for lines none equal to `"."` and none starting with `'.'`,
`ReadLines` over those lines followed by the `"."` terminator returns exactly
those lines in order, without the terminator. -/
theorem c3_readLines_returns_block (ls : List String)
    (h : ∀ l ∈ ls, l ≠ "." ∧ l.data.head? ≠ some '.') :
    readLines (ls ++ ["."]) = (ls, true) := by
  induction ls with
  | nil => rfl
  | cons l rest ih =>
    obtain ⟨h1, h2⟩ := h l (List.mem_cons_self l rest)
    have hs : stripDot l = l := by unfold stripDot; rw [if_neg h2]
    have hr := ih (fun x hx => h x (List.mem_cons_of_mem l hx))
    simp [readLines, h1, hs, hr]

/-- Witness for C3 on a concrete two-line block. -/
theorem c3_witness : readLines ["a", "b", "."] = (["a", "b"], true) :=
  c3_readLines_returns_block ["a", "b"] (by decide)

/-- C4: a line starting with `'.'` that is not exactly `"."` has exactly one
leading dot stripped by `ReadLines`, and the line `"."` terminates the block
and is excluded from the output. -/
theorem c4_readLines_dot_handling :
    (∀ (l : String) (rest : List String), l ≠ "." → l.data.head? = some '.' →
      readLines (l :: rest)
        = (String.mk l.data.tail :: (readLines rest).1, (readLines rest).2)) ∧
    (∀ rest : List String, readLines ("." :: rest) = ([], true)) := by
  constructor
  · intro l rest h1 h2
    have hs : stripDot l = String.mk l.data.tail := by
      unfold stripDot; rw [if_pos h2]
    simp [readLines, h1, hs]
  · intro rest
    simp [readLines]

/-- Witness for C4: `".hello"` comes back as `"hello"`, and a doubled-dot
line `"..x"` loses only one dot. -/
theorem c4_witness :
    readLines [".hello", "."] = (["hello"], true) ∧
    readLines ["..x", "."] = ([".x"], true) := by
  constructor
  · have h := c4_readLines_dot_handling.1 ".hello" ["."] (by decide) (by decide)
    rw [h]; rfl
  · have h := c4_readLines_dot_handling.1 "..x" ["."] (by decide) (by decide)
    rw [h]; rfl

/-- C5: `Auth` selects CRAM-MD5 when the scanned SASL mechanism list
contains `"CRAM-MD5"`, otherwise PLAIN when the bare `"PLAIN"` capability
was seen, otherwise the unsupported-authentication error; in particular on
the three capability sets named in the claim. -/
theorem c5_auth_mechanism_selection :
    (∀ caps : List String,
      ("CRAM-MD5" ∈ (capsScan caps).1.getD [] →
        authSelect caps = AuthChoice.cramMd5) ∧
      ("CRAM-MD5" ∉ (capsScan caps).1.getD [] →
        (capsScan caps).2 = true → authSelect caps = AuthChoice.plain) ∧
      ("CRAM-MD5" ∉ (capsScan caps).1.getD [] →
        (capsScan caps).2 = false → authSelect caps = AuthChoice.unsupported)) ∧
    authSelect ["SASL CRAM-MD5 PLAIN", "PLAIN"] = AuthChoice.cramMd5 ∧
    authSelect ["PLAIN"] = AuthChoice.plain ∧
    authSelect [] = AuthChoice.unsupported := by
  refine ⟨fun caps => ?_, rfl, rfl, rfl⟩
  cases hs : (capsScan caps).1 with
  | none =>
    refine ⟨fun hcon => absurd hcon (by simp), fun _ hp => ?_, fun _ hp => ?_⟩
    · simp [authSelect, hs, hp]
    · simp [authSelect, hs, hp]
  | some sasl =>
    refine ⟨fun hcon => ?_, fun hcon hp => ?_, fun hcon hp => ?_⟩
    · have hmem : "CRAM-MD5" ∈ sasl := by simpa using hcon
      simp [authSelect, hs, hmem]
    · have hmem : "CRAM-MD5" ∉ sasl := by simpa using hcon
      simp [authSelect, hs, hmem, hp]
    · have hmem : "CRAM-MD5" ∉ sasl := by simpa using hcon
      simp [authSelect, hs, hmem, hp]

/-- Witness for C5 at concrete capability lists. -/
theorem c5_witness :
    authSelect ["SASL CRAM-MD5"] = AuthChoice.cramMd5 ∧
    authSelect ["X", "PLAIN", "Y"] = AuthChoice.plain := by
  constructor
  · exact (c5_auth_mechanism_selection.1 ["SASL CRAM-MD5"]).1 (by decide)
  · exact (c5_auth_mechanism_selection.1 ["X", "PLAIN", "Y"]).2.1 (by decide) (by decide)

/-- C6 counterexample: the plain branch of `Auth` for username `"alice"` and
password `"pass"` sends `"AUTH alice cGFzcw=="` — the username stands where
the claim puts the literal `"PLAIN"` token — not `"AUTH PLAIN cGFzcw=="`. -/
theorem c6_counterexample :
    authPlainCmdText "alice" "pass" = "AUTH alice cGFzcw==" ∧
    authPlainCmdText "alice" "pass" ≠ "AUTH PLAIN " ++ base64String "pass" := by
  constructor
  · rfl
  · decide

/-- C6 amended: the plain branch sends `AUTH`, then the username, then the
base64 encoding of the password alone; only the claim about the literal
`"PLAIN"` token is dropped — the encoded credential is still the password. -/
theorem c6_amended (username password : String) :
    authPlainCmdText username password
      = "AUTH " ++ username ++ " " ++ base64String password := by
  apply String.ext
  have hL : (authPlainCmdText username password).data
      = 'A' :: 'U' :: 'T' :: 'H' :: ' ' ::
        (username.data ++ ' ' :: ((base64String password).data ++ [])) := rfl
  rw [hL, String.data_append, String.data_append, String.data_append,
    show ("AUTH " : String).data = ['A', 'U', 'T', 'H', ' '] from rfl,
    show (" " : String).data = [' '] from rfl]
  simp

/-- C7: on the LIST block `["1 10", "x 20"]` the parse failure on the second
line makes `ListAll` return an error together with the partially populated,
zero-padded slices `[1, 0]` and `[10, 0]` — not empty slices. -/
theorem c7_listAll_partial_on_failure :
    listAllParse ["1 10", "x 20"] = some ([1, 0], [10, 0], false) ∧
    listAllParse ["1 10", "x 20"] ≠ some ([], [], false) := by
  constructor
  · rfl
  · decide

/-- C8: on a payload with at least two whitespace-separated fields, `Stat`
returns the two parsed integers on success, and `(0, 0)` with the
malformed-response error `"Invalid server response"` when the first or the
second field is not a valid integer. -/
theorem c8_stat_parsing (l : String) (f0 f1 : String) (rest : List String)
    (h : goFields l = f0 :: f1 :: rest) :
    (∀ c s : Int, goAtoi f0 = some c → goAtoi f1 = some s →
      statParse l = some (c, s, none)) ∧
    (goAtoi f0 = none ∨ goAtoi f1 = none →
      statParse l = some (0, 0, some "Invalid server response")) := by
  constructor
  · intro c s hc hs
    simp [statParse, h, hc, hs]
  · rintro (hc | hc)
    · simp [statParse, h, hc]
    · cases hf : goAtoi f0 with
      | none => simp [statParse, h, hf]
      | some c => simp [statParse, h, hf, hc]

/-- Witness for C8 at the payloads named in the claim. -/
theorem c8_witness :
    statParse "5 2048" = some (5, 2048, none) ∧
    statParse "abc 10" = some (0, 0, some "Invalid server response") := by
  constructor
  · exact (c8_stat_parsing "5 2048" "5" "2048" [] (by decide)).1 5 2048
      (by decide) (by decide)
  · exact (c8_stat_parsing "abc 10" "abc" "10" [] (by decide)).2
      (Or.inl (by decide))

/-- C9 counterexample: for the empty command text, `Cmd` writes the empty
string to the transport — not a bare CRLF as the claim states. -/
theorem c9_counterexample : cmdWrite "" = "" ∧ ("" : String) ≠ "\r\n" :=
  ⟨rfl, by decide⟩

/-- C9 amended: an empty command text makes `Cmd` write nothing at all
before reading the greeting line; every non-empty command text is written
followed by CRLF. -/
theorem c9_amended :
    cmdWrite "" = "" ∧ ∀ s : String, s ≠ "" → cmdWrite s = s ++ "\r\n" :=
  ⟨rfl, fun s h => by simp [cmdWrite, h]⟩

/-- Witness for C9 at a concrete non-empty command text. -/
theorem c9_witness : cmdWrite "STAT" = "STAT" ++ "\r\n" :=
  c9_amended.2 "STAT" (by decide)

/-- C10: on success payloads with fewer than two fields the unguarded
`parts[0]` / `parts[1]` / `Fields(l)[1]` accesses of `Stat` and `List`
go out of range (a panic, modelled by `none`) instead of producing a
malformed-response error. -/
theorem c10_unguarded_field_indexing :
    statParse "" = none ∧ statParse "5" = none ∧
    listParse "" = none ∧ listParse "7" = none := by
  refine ⟨rfl, ?_, rfl, ?_⟩ <;> decide

end Pop3
